import Mathlib

/-!
Shallow embedding of `src/no-code/google-functions/transcript/main.py`:
a Google Cloud Function `process_audio(event, context)` that reacts to a
storage event, optionally transcodes the audio object with ffmpeg, calls
`transcribe_audio` (long-running speech recognition with a poll loop), and
uploads the transcript back to the bucket.

External effects (storage downloads/uploads, the ffmpeg subprocess, the
speech operation) are modelled by an explicit environment `Env`; the run
of the handler is a trace of the effects it performs plus the set of
local files in `/tmp` it leaves behind.
-/

namespace Transcript

/-- One ranked alternative of a recognition result (`result.alternatives[i]`),
carrying its `transcript` string. -/
structure SpeechAlternative where
  transcript : String
deriving DecidableEq, Repr

/-- One recognition result segment of the response (`response.results[i]`). -/
structure RecognitionResult where
  alternatives : List SpeechAlternative
deriving DecidableEq, Repr

/-- Behaviour of the remote long-running recognition operation:
`doneAt k` is what the `k`-th call of `operation.done()` returns, `fetchOk`
says whether `operation.result(timeout=1000)` returns within the timeout,
and `results` is the response's result list. -/
structure Operation where
  doneAt : Nat → Bool
  fetchOk : Bool
  results : List RecognitionResult

/-- `time.sleep(5)` interval of the poll loop, from the source. -/
def sleepSeconds : Nat := 5

/-- `operation.result(timeout=1000)` bound, from the source. -/
def resultTimeoutSeconds : Nat := 1000

/-- `sample_rate_hertz=16000` in the recognition config, from the source. -/
def sampleRateHertz : Nat := 16000

/-- `language_code = "de-DE"` default in `process_audio`, from the source. -/
def languageCode : String := "de-DE"

/-- Audio encoding passed to the speech API. -/
inductive Encoding
  | LINEAR16
  | MP3
deriving DecidableEq, Repr

/-- `encoding = ... LINEAR16 if file_extension == "wav" else ... MP3`. -/
def encodingFor (file_extension : String) : Encoding :=
  if file_extension = "wav" then Encoding.LINEAR16 else Encoding.MP3

/-- The poll loop `while not operation.done(): ...; time.sleep(5)`, with
explicit fuel: `pollDone op fuel k` performs up to `fuel` calls of
`operation.done()` starting with call number `k` and returns the index of
the first call that reports completion (`none` = still looping when the
fuel runs out, i.e. the real loop has not terminated yet). -/
def pollDone (op : Operation) : Nat → Nat → Option Nat
  | 0, _ => none
  | fuel + 1, k => if op.doneAt k then some k else pollDone op fuel (k + 1)

/-- The list `[result.alternatives[0].transcript for result in response.results]`;
`none` models the `IndexError` raised by `alternatives[0]` when some result
has no alternatives. -/
def firstAlternatives : List RecognitionResult → Option (List String)
  | [] => some []
  | r :: rest =>
    match r.alternatives.head?, firstAlternatives rest with
    | some a, some ts => some (a.transcript :: ts)
    | _, _ => none

/-- `"\n".join([result.alternatives[0].transcript for result in response.results])`. -/
def compileTranscription (results : List RecognitionResult) : Option String :=
  (firstAlternatives results).map (String.intercalate "\n")

/-- Exceptions `transcribe_audio` can raise (it re-raises everything it
catches). -/
inductive TranscribeErr
  | fetchTimeout
  | emptyAlternatives
deriving DecidableEq, Repr

/-- `transcribe_audio(gcs_uri, file_extension, language_code)`: poll the
operation until done (fuelled; `none` = the loop has not terminated within
`fuel` checks), then fetch the result with the bounded wait and compile the
transcription. -/
def transcribeAudio (fuel : Nat) (op : Operation)
    (gcs_uri file_extension language_code : String) :
    Option (Except TranscribeErr String) :=
  match pollDone op fuel 0 with
  | none => none
  | some _ =>
    if op.fetchOk then
      match compileTranscription op.results with
      | some t => some (Except.ok t)
      | none => some (Except.error TranscribeErr.emptyAlternatives)
    else some (Except.error TranscribeErr.fetchTimeout)

/-- The chars after the last dot of a char list (the whole list when there
is no dot): char-level embedding of Python `file_name.split(".")[-1]`. -/
def extCore : List Char → List Char → List Char
  | [], acc => acc.reverse
  | c :: cs, acc => if c = '.' then extCore cs [] else extCore cs (c :: acc)

/-- `file_name.split(".")[-1].lower()`. -/
def fileExtensionOf (file_name : String) : String :=
  String.mk ((extCore file_name.data []).map Char.toLower)

/-- Char-level prefix test used by the substring search. -/
def isPrefixChars : List Char → List Char → Bool
  | [], _ => true
  | _ :: _, [] => false
  | p :: ps, c :: cs => (p == c) && isPrefixChars ps cs

/-- Char-level substring search. -/
def hasSub : List Char → List Char → Bool
  | [], pat => pat.isEmpty
  | c :: rest, pat => isPrefixChars pat (c :: rest) || hasSub rest pat

/-- Python's `pat in s` substring test. -/
def strContains (s pat : String) : Bool :=
  hasSub s.data pat.data

/-- `f"/tmp/{file_name}"`. -/
def tmpPath (file_name : String) : String := "/tmp/" ++ file_name

/-- The triggering storage event; `none` fields model keys absent from the
payload dict (Python `event['bucket']` raises `KeyError`). -/
structure Event where
  bucket : Option String
  name : Option String
deriving DecidableEq, Repr

/-- The exceptions that can be raised inside `process_audio`'s `try` block. -/
inductive Err
  | keyError (field : String)
  | missingBucketOrName
  | unsupportedFormat (ext : String)
  | downloadError
  | uploadError
  | transcodeError (exitCode : Nat)
  | transcriptionError
deriving DecidableEq, Repr

/-- The spec's `InvalidEvent` condition class: a missing `bucket`/`name`
key (Python `KeyError`) or the `ValueError` raised on an empty value. -/
def Err.isInvalidEvent : Err → Bool
  | Err.keyError _ => true
  | Err.missingBucketOrName => true
  | _ => false

/-- Observable effects of one invocation, in the order they happen. -/
inductive Action
  | download (localPath : String)
  | ffmpeg (args : List String)
  | removeLocal (path : String)
  | uploadFile (blobName : String) (localPath : String)
  | uploadString (blobName : String) (content : String) (contentType : String)
  | transcribe (uri : String) (enc : Encoding)
  | skipConverted (name : String)
  | logError (e : Err)
deriving DecidableEq, Repr

/-- Behaviour of the external world for one invocation. -/
structure Env where
  downloadOk : Bool
  transcodeExitCode : Nat
  uploadFileOk : Bool
  uploadStringOk : Bool
  op : Operation

/-- Final observable state of one invocation: the trace of effects and the
local `/tmp` files still present when the handler returns. -/
structure RunResult where
  trace : List Action
  localFiles : List String
deriving DecidableEq, Repr

def isUpload : Action → Bool
  | Action.uploadFile _ _ => true
  | Action.uploadString _ _ _ => true
  | _ => false

def isFfmpeg : Action → Bool
  | Action.ffmpeg _ => true
  | _ => false

def isTranscribe : Action → Bool
  | Action.transcribe _ _ => true
  | _ => false

def isDownload : Action → Bool
  | Action.download _ => true
  | _ => false

def isRemoveLocal : Action → Bool
  | Action.removeLocal _ => true
  | _ => false

def isUploadFile : Action → Bool
  | Action.uploadFile _ _ => true
  | _ => false

/-- Tail of `process_audio` shared by every format branch: call
`transcribe_audio` on the resolved `gcs_uri` and upload the transcription
under `f"{file_name}.txt"` with content type `text/plain`. -/
def transcribeAndSave (fuel : Nat) (env : Env)
    (gcs_uri file_name file_extension : String)
    (tr : List Action) (fs : List String) :
    Option (Except (Err × List Action × List String) (List Action × List String)) :=
  let tr := tr ++ [Action.transcribe gcs_uri (encodingFor file_extension)]
  match transcribeAudio fuel env.op gcs_uri file_extension languageCode with
  | none => none
  | some (Except.error _) => some (Except.error (Err.transcriptionError, tr, fs))
  | some (Except.ok transcription) =>
    if env.uploadStringOk then
      some (Except.ok
        (tr ++ [Action.uploadString (file_name ++ ".txt") transcription "text/plain"], fs))
    else some (Except.error (Err.uploadError, tr, fs))

/-- Body of `process_audio`'s `try` block. Returns `none` when the run does
not terminate (the poll loop never sees completion within `fuel`), otherwise
`Except.error (e, trace, files)` when exception `e` escapes the block after
trace `trace`, or `Except.ok (trace, files)` on normal completion. -/
def processAudioTry (fuel : Nat) (env : Env) (event : Event) :
    Option (Except (Err × List Action × List String) (List Action × List String)) :=
  match event.bucket with
  | none => some (Except.error (Err.keyError "bucket", [], []))
  | some bucket_name =>
    match event.name with
    | none => some (Except.error (Err.keyError "name", [], []))
    | some file_name =>
      if bucket_name = "" ∨ file_name = "" then
        some (Except.error (Err.missingBucketOrName, [], []))
      else
        let file_extension := fileExtensionOf file_name
        if file_extension = "wav" ∧ strContains file_name "_converted" = true then
          some (Except.ok ([Action.skipConverted file_name], []))
        else
          let local_file := tmpPath file_name
          if env.downloadOk then
            let tr := [Action.download local_file]
            let fs := [local_file]
            if file_extension = "wav" then
              transcribeAndSave fuel env ("gs://" ++ bucket_name ++ "/" ++ file_name)
                file_name file_extension tr fs
            else if file_extension = "m4a" then
              let local_converted := tmpPath file_name ++ "_converted.wav"
              let tr := tr ++ [Action.ffmpeg ["ffmpeg", "-y", "-i", local_file,
                "-acodec", "pcm_s16le", "-ar", "16000", local_converted]]
              if env.transcodeExitCode ≠ 0 then
                some (Except.error (Err.transcodeError env.transcodeExitCode, tr, fs))
              else
                let fs := fs ++ [local_converted]
                let tr := tr ++ [Action.removeLocal local_file]
                let fs := fs.erase local_file
                let converted_blob_name := file_name ++ "_converted.wav"
                if env.uploadFileOk then
                  let tr := tr ++ [Action.uploadFile converted_blob_name local_converted]
                  let tr := tr ++ [Action.removeLocal local_converted]
                  let fs := fs.erase local_converted
                  transcribeAndSave fuel env
                    ("gs://" ++ bucket_name ++ "/" ++ converted_blob_name)
                    file_name "wav" tr fs
                else some (Except.error (Err.uploadError, tr, fs))
            else if file_extension = "mp3" then
              transcribeAndSave fuel env ("gs://" ++ bucket_name ++ "/" ++ file_name)
                file_name file_extension tr fs
            else
              some (Except.error (Err.unsupportedFormat file_extension, tr, fs))
          else some (Except.error (Err.downloadError, [], []))

/-- `process_audio(event, context)`: run the `try` block; any exception is
caught by the top-level `except`, which prints the error and returns
normally. `none` = the invocation does not terminate. -/
def processAudio (fuel : Nat) (env : Env) (event : Event) : Option RunResult :=
  match processAudioTry fuel env event with
  | none => none
  | some (Except.ok (tr, fs)) => some { trace := tr, localFiles := fs }
  | some (Except.error (e, tr, fs)) =>
      some { trace := tr ++ [Action.logError e], localFiles := fs }

/-- `true` iff no `removeLocal` action occurs before the first `uploadFile`
action of the trace (used to phrase "the local temporaries are deleted
after the converted object's upload"). -/
def noRemovalBeforeUpload : List Action → Bool
  | [] => true
  | Action.removeLocal _ :: _ => false
  | Action.uploadFile _ _ :: _ => true
  | _ :: rest => noRemovalBeforeUpload rest

/-- A remote operation that is immediately done, fetches fine and returns
two result segments (the first with two ranked alternatives). -/
def opA : Operation where
  doneAt := fun _ => true
  fetchOk := true
  results := [ { alternatives := [ { transcript := "hallo welt" }, { transcript := "x" } ] },
               { alternatives := [ { transcript := "zweiter teil" } ] } ]

/-- An environment in which every external call succeeds. -/
def envA : Env where
  downloadOk := true
  transcodeExitCode := 0
  uploadFileOk := true
  uploadStringOk := true
  op := opA

/-- A remote operation that reports done on the second `done()` check but
whose final `result(timeout=1000)` fetch times out. -/
def opTimeout : Operation where
  doneAt := fun k => k == 1
  fetchOk := false
  results := []

/-! ### Run lemmas: the trace of each branch of `process_audio` -/

theorem run_skip (fuel : Nat) (env : Env) (b n : String) (hb : b ≠ "") (hn : n ≠ "")
    (hext : fileExtensionOf n = "wav") (hmk : strContains n "_converted" = true) :
    processAudio fuel env { bucket := some b, name := some n } =
      some { trace := [Action.skipConverted n], localFiles := [] } := by
  simp [processAudio, processAudioTry, hb, hn, hext, hmk]

theorem run_wav (fuel : Nat) (env : Env) (b n : String) (j : Nat) (t : String)
    (hb : b ≠ "") (hn : n ≠ "")
    (hext : fileExtensionOf n = "wav") (hmk : strContains n "_converted" = false)
    (hdl : env.downloadOk = true)
    (hpoll : pollDone env.op fuel 0 = some j) (hfetch : env.op.fetchOk = true)
    (hcomp : compileTranscription env.op.results = some t)
    (hup : env.uploadStringOk = true) :
    processAudio fuel env { bucket := some b, name := some n } =
      some { trace := [Action.download (tmpPath n),
                       Action.transcribe ("gs://" ++ b ++ "/" ++ n) Encoding.LINEAR16,
                       Action.uploadString (n ++ ".txt") t "text/plain"],
             localFiles := [tmpPath n] } := by
  simp [processAudio, processAudioTry, transcribeAndSave, transcribeAudio, encodingFor,
    hb, hn, hext, hmk, hdl, hpoll, hfetch, hcomp, hup]

theorem run_mp3 (fuel : Nat) (env : Env) (b n : String) (j : Nat) (t : String)
    (hb : b ≠ "") (hn : n ≠ "")
    (hext : fileExtensionOf n = "mp3")
    (hdl : env.downloadOk = true)
    (hpoll : pollDone env.op fuel 0 = some j) (hfetch : env.op.fetchOk = true)
    (hcomp : compileTranscription env.op.results = some t)
    (hup : env.uploadStringOk = true) :
    processAudio fuel env { bucket := some b, name := some n } =
      some { trace := [Action.download (tmpPath n),
                       Action.transcribe ("gs://" ++ b ++ "/" ++ n) Encoding.MP3,
                       Action.uploadString (n ++ ".txt") t "text/plain"],
             localFiles := [tmpPath n] } := by
  simp [processAudio, processAudioTry, transcribeAndSave, transcribeAudio, encodingFor,
    hb, hn, hext, hdl, hpoll, hfetch, hcomp, hup]

theorem run_m4a (fuel : Nat) (env : Env) (b n : String) (j : Nat) (t : String)
    (hb : b ≠ "") (hn : n ≠ "")
    (hext : fileExtensionOf n = "m4a")
    (hdl : env.downloadOk = true)
    (hexit : env.transcodeExitCode = 0) (hupf : env.uploadFileOk = true)
    (hpoll : pollDone env.op fuel 0 = some j) (hfetch : env.op.fetchOk = true)
    (hcomp : compileTranscription env.op.results = some t)
    (hup : env.uploadStringOk = true) :
    processAudio fuel env { bucket := some b, name := some n } =
      some { trace := [Action.download (tmpPath n),
                       Action.ffmpeg ["ffmpeg", "-y", "-i", tmpPath n,
                         "-acodec", "pcm_s16le", "-ar", "16000",
                         tmpPath n ++ "_converted.wav"],
                       Action.removeLocal (tmpPath n),
                       Action.uploadFile (n ++ "_converted.wav") (tmpPath n ++ "_converted.wav"),
                       Action.removeLocal (tmpPath n ++ "_converted.wav"),
                       Action.transcribe ("gs://" ++ b ++ "/" ++ (n ++ "_converted.wav"))
                         Encoding.LINEAR16,
                       Action.uploadString (n ++ ".txt") t "text/plain"],
             localFiles := [] } := by
  simp [processAudio, processAudioTry, transcribeAndSave, transcribeAudio, encodingFor,
    hb, hn, hext, hdl, hexit, hupf, hpoll, hfetch, hcomp, hup]

theorem run_unsupported (fuel : Nat) (env : Env) (b n : String)
    (hb : b ≠ "") (hn : n ≠ "")
    (h1 : fileExtensionOf n ≠ "wav") (h2 : fileExtensionOf n ≠ "m4a")
    (h3 : fileExtensionOf n ≠ "mp3")
    (hdl : env.downloadOk = true) :
    processAudio fuel env { bucket := some b, name := some n } =
      some { trace := [Action.download (tmpPath n),
                       Action.logError (Err.unsupportedFormat (fileExtensionOf n))],
             localFiles := [tmpPath n] } := by
  simp [processAudio, processAudioTry, hb, hn, h1, h2, h3, hdl]

theorem run_download_failed (fuel : Nat) (env : Env) (b n : String)
    (hb : b ≠ "") (hn : n ≠ "")
    (hg : ¬ (fileExtensionOf n = "wav" ∧ strContains n "_converted" = true))
    (hdl : env.downloadOk = false) :
    processAudio fuel env { bucket := some b, name := some n } =
      some { trace := [Action.logError Err.downloadError], localFiles := [] } := by
  simp [processAudio, processAudioTry, hb, hn, hg, hdl]

/-! ### Poll-loop, transcript-assembly and extension lemmas -/

theorem pollDone_first_done (op : Operation) :
    ∀ fuel k j, pollDone op fuel k = some j →
      k ≤ j ∧ op.doneAt j = true ∧ ∀ i, k ≤ i → i < j → op.doneAt i = false := by
  intro fuel
  induction fuel with
  | zero => intro k j h; simp [pollDone] at h
  | succ fuel ih =>
    intro k j h
    by_cases hk : op.doneAt k = true
    · simp [pollDone, hk] at h
      subst h
      exact ⟨le_refl _, hk, fun i h1 h2 => absurd (lt_of_le_of_lt h1 h2) (lt_irrefl _)⟩
    · simp [pollDone, hk] at h
      obtain ⟨h1, h2, h3⟩ := ih (k + 1) j h
      refine ⟨le_trans (Nat.le_succ k) h1, h2, fun i hi1 hi2 => ?_⟩
      rcases Nat.eq_or_lt_of_le hi1 with he | hl
      · subst he; simpa using hk
      · exact h3 i hl hi2

theorem pollDone_of_done (op : Operation) :
    ∀ fuel k, (∃ i, k ≤ i ∧ i < k + fuel ∧ op.doneAt i = true) →
      ∃ j, pollDone op fuel k = some j := by
  intro fuel
  induction fuel with
  | zero =>
    intro k ⟨i, h1, h2, _⟩
    omega
  | succ fuel ih =>
    intro k ⟨i, h1, h2, h3⟩
    by_cases hk : op.doneAt k = true
    · exact ⟨k, by simp [pollDone, hk]⟩
    · have hik : i ≠ k := fun he => hk (he ▸ h3)
      obtain ⟨j, hj⟩ := ih (k + 1) ⟨i, by omega, by omega, h3⟩
      exact ⟨j, by simp [pollDone, hk, hj]⟩

theorem firstAlternatives_of_nonempty (results : List RecognitionResult)
    (h : ∀ r ∈ results, r.alternatives ≠ []) :
    firstAlternatives results =
      some (results.map (fun r => (r.alternatives.headD { transcript := "" }).transcript)) := by
  induction results with
  | nil => simp [firstAlternatives]
  | cons r rest ih =>
    have hr : r.alternatives ≠ [] := h r (List.mem_cons_self r rest)
    have hrest := ih (fun x hx => h x (List.mem_cons_of_mem r hx))
    cases halt : r.alternatives with
    | nil => exact absurd halt hr
    | cons a as => simp [firstAlternatives, halt, hrest]

theorem extCore_append_dot (ys : List Char) :
    ∀ xs acc, extCore (xs ++ '.' :: ys) acc = extCore ys [] := by
  intro xs
  induction xs with
  | nil => intro acc; simp [extCore]
  | cons c cs ih =>
    intro acc
    by_cases hc : c = '.' <;> simp [extCore, hc, ih]

theorem fileExtensionOf_append_txt (n : String) :
    fileExtensionOf (n ++ ".txt") = "txt" := by
  have hdata : (n ++ ".txt").data = n.data ++ '.' :: ['t', 'x', 't'] := by
    simp [String.data_append]
  simp [fileExtensionOf, hdata, extCore_append_dot]
  decide

theorem append_txt_ne_empty (n : String) : n ++ ".txt" ≠ "" := by
  intro h
  have : (n ++ ".txt").data = ([] : List Char) := by rw [h]
  simp [String.data_append] at this

theorem run_missing_bucket (fuel : Nat) (env : Env) (nm : Option String) :
    processAudio fuel env { bucket := none, name := nm } =
      some { trace := [Action.logError (Err.keyError "bucket")], localFiles := [] } := by
  simp [processAudio, processAudioTry]

theorem run_missing_name (fuel : Nat) (env : Env) (b : String) :
    processAudio fuel env { bucket := some b, name := none } =
      some { trace := [Action.logError (Err.keyError "name")], localFiles := [] } := by
  simp [processAudio, processAudioTry]

theorem run_empty_names (fuel : Nat) (env : Env) (b n : String) (h : b = "" ∨ n = "") :
    processAudio fuel env { bucket := some b, name := some n } =
      some { trace := [Action.logError Err.missingBucketOrName], localFiles := [] } := by
  rcases h with h | h <;> subst h <;> simp [processAudio, processAudioTry]

/-! ### Claim theorems -/

/-- C1 counterexample: on the fully successful `m4a` run for
`{bucket: "b1", name: "call.m4a"}`, the handler deletes the local original
`/tmp/call.m4a` (trace position 2) BEFORE it uploads the converted object
(trace position 3), so the claim's "deletes both local temporary files
after the converted object's upload" is false: a `removeLocal` precedes the
`uploadFile` in the trace. -/
theorem c1_counterexample :
    processAudio 1 envA { bucket := some "b1", name := some "call.m4a" } =
      some { trace := [Action.download "/tmp/call.m4a",
                       Action.ffmpeg ["ffmpeg", "-y", "-i", "/tmp/call.m4a",
                         "-acodec", "pcm_s16le", "-ar", "16000", "/tmp/call.m4a_converted.wav"],
                       Action.removeLocal "/tmp/call.m4a",
                       Action.uploadFile "call.m4a_converted.wav" "/tmp/call.m4a_converted.wav",
                       Action.removeLocal "/tmp/call.m4a_converted.wav",
                       Action.transcribe "gs://b1/call.m4a_converted.wav" Encoding.LINEAR16,
                       Action.uploadString "call.m4a.txt" "hallo welt\nzweiter teil" "text/plain"],
             localFiles := [] } ∧
    (processAudio 1 envA { bucket := some "b1", name := some "call.m4a" }).map
      (fun r => noRemovalBeforeUpload r.trace) = some false := by
  refine ⟨by decide, by decide⟩

/-- C1 (amended): on every fully successful `m4a` invocation the handler
runs ffmpeg exactly once with codec `pcm_s16le` and sample rate 16000,
deletes the downloaded original BEFORE uploading the converted object under
`<key>_converted.wav`, deletes the local converted wav after that upload,
transcribes the converted object's location with encoding LINEAR16 exactly
once, uploads the transcript under `<key>.txt`, and performs exactly two
uploads in total, leaving no local files. -/
theorem c1_m4a_pipeline (fuel : Nat) (env : Env) (b n : String) (j : Nat) (t : String)
    (hb : b ≠ "") (hn : n ≠ "") (hext : fileExtensionOf n = "m4a")
    (hdl : env.downloadOk = true) (hexit : env.transcodeExitCode = 0)
    (hupf : env.uploadFileOk = true)
    (hpoll : pollDone env.op fuel 0 = some j) (hfetch : env.op.fetchOk = true)
    (hcomp : compileTranscription env.op.results = some t)
    (hup : env.uploadStringOk = true) :
    ∃ r, processAudio fuel env { bucket := some b, name := some n } = some r ∧
      r.trace = [Action.download (tmpPath n),
                 Action.ffmpeg ["ffmpeg", "-y", "-i", tmpPath n,
                   "-acodec", "pcm_s16le", "-ar", "16000",
                   tmpPath n ++ "_converted.wav"],
                 Action.removeLocal (tmpPath n),
                 Action.uploadFile (n ++ "_converted.wav") (tmpPath n ++ "_converted.wav"),
                 Action.removeLocal (tmpPath n ++ "_converted.wav"),
                 Action.transcribe ("gs://" ++ b ++ "/" ++ (n ++ "_converted.wav"))
                   Encoding.LINEAR16,
                 Action.uploadString (n ++ ".txt") t "text/plain"] ∧
      r.trace.countP isFfmpeg = 1 ∧
      r.trace.countP isUpload = 2 ∧
      r.trace.countP isTranscribe = 1 ∧
      noRemovalBeforeUpload r.trace = false ∧
      r.localFiles = [] := by
  refine ⟨_, run_m4a fuel env b n j t hb hn hext hdl hexit hupf hpoll hfetch hcomp hup,
    rfl, ?_, ?_, ?_, rfl, rfl⟩ <;>
  simp [List.countP_cons, isFfmpeg, isUpload, isTranscribe]

/-- C1 witness: the amended pipeline at the concrete event
`{bucket: "b1", name: "call.m4a"}` in the all-success environment. -/
theorem c1_witness :
    ∃ r, processAudio 1 envA { bucket := some "b1", name := some "call.m4a" } = some r ∧
      r.trace = [Action.download (tmpPath "call.m4a"),
                 Action.ffmpeg ["ffmpeg", "-y", "-i", tmpPath "call.m4a",
                   "-acodec", "pcm_s16le", "-ar", "16000",
                   tmpPath "call.m4a" ++ "_converted.wav"],
                 Action.removeLocal (tmpPath "call.m4a"),
                 Action.uploadFile ("call.m4a" ++ "_converted.wav")
                   (tmpPath "call.m4a" ++ "_converted.wav"),
                 Action.removeLocal (tmpPath "call.m4a" ++ "_converted.wav"),
                 Action.transcribe ("gs://" ++ "b1" ++ "/" ++ ("call.m4a" ++ "_converted.wav"))
                   Encoding.LINEAR16,
                 Action.uploadString ("call.m4a" ++ ".txt") "hallo welt\nzweiter teil" "text/plain"] ∧
      r.trace.countP isFfmpeg = 1 ∧
      r.trace.countP isUpload = 2 ∧
      r.trace.countP isTranscribe = 1 ∧
      noRemovalBeforeUpload r.trace = false ∧
      r.localFiles = [] :=
  c1_m4a_pipeline 1 envA "b1" "call.m4a" 0 "hallo welt\nzweiter teil"
    (by decide) (by decide) (by decide) rfl rfl rfl rfl rfl rfl rfl

/-- C2: every exception `e` that escapes the body of `process_audio`'s
`try` block is caught by the top-level handler, which appends a log message
for `e` and returns normally — `process_audio` never propagates an
exception. -/
theorem c2_catch_all (fuel : Nat) (env : Env) (event : Event)
    (e : Err) (tr : List Action) (fs : List String)
    (h : processAudioTry fuel env event = some (Except.error (e, tr, fs))) :
    processAudio fuel env event =
      some { trace := tr ++ [Action.logError e], localFiles := fs } := by
  simp [processAudio, h]

/-- C2 witness: the `KeyError` on a payload without `bucket` is caught and
logged, and the handler returns normally. -/
theorem c2_witness :
    processAudio 1 envA { bucket := none, name := some "a.wav" } =
      some { trace := [Action.logError (Err.keyError "bucket")], localFiles := [] } :=
  c2_catch_all 1 envA { bucket := none, name := some "a.wav" }
    (Err.keyError "bucket") [] [] rfl

/-- C3: when the operation completes, the fetch succeeds and every result
segment has at least one alternative, `transcribe_audio` returns exactly
the newline-joined first alternatives of the results, in response order. -/
theorem c3_transcript_joined (fuel : Nat) (op : Operation)
    (gcs_uri file_extension language_code : String) (j : Nat)
    (hpoll : pollDone op fuel 0 = some j) (hfetch : op.fetchOk = true)
    (hne : ∀ r ∈ op.results, r.alternatives ≠ []) :
    transcribeAudio fuel op gcs_uri file_extension language_code =
      some (Except.ok (String.intercalate "\n"
        (op.results.map (fun r => (r.alternatives.headD { transcript := "" }).transcript)))) := by
  simp [transcribeAudio, hpoll, hfetch, compileTranscription,
    firstAlternatives_of_nonempty op.results hne]

/-- C3 witness: two segments with top alternatives "hallo welt" and
"zweiter teil" produce the transcript "hallo welt\nzweiter teil". -/
theorem c3_witness :
    transcribeAudio 1 opA "gs://b1/rec.wav" "wav" "de-DE" =
      some (Except.ok "hallo welt\nzweiter teil") :=
  c3_transcript_joined 1 opA "gs://b1/rec.wav" "wav" "de-DE" 0 rfl rfl (by decide)

/-- C4: on a successful `wav` invocation (key without the converted marker)
the handler transcribes the source's own `gs://` location with LINEAR16,
runs no transcoder, and uploads exactly one object, `<key>.txt`; on a
successful `mp3` invocation it transcribes the source's own location with
MP3, runs no transcoder, and uploads exactly one object, `<key>.txt`. -/
theorem c4_direct_formats (fuel : Nat) (env : Env) (b n : String) (j : Nat) (t : String)
    (hb : b ≠ "") (hn : n ≠ "")
    (hdl : env.downloadOk = true)
    (hpoll : pollDone env.op fuel 0 = some j) (hfetch : env.op.fetchOk = true)
    (hcomp : compileTranscription env.op.results = some t)
    (hup : env.uploadStringOk = true) :
    (fileExtensionOf n = "wav" → strContains n "_converted" = false →
      ∃ r, processAudio fuel env { bucket := some b, name := some n } = some r ∧
        r.trace = [Action.download (tmpPath n),
                   Action.transcribe ("gs://" ++ b ++ "/" ++ n) Encoding.LINEAR16,
                   Action.uploadString (n ++ ".txt") t "text/plain"] ∧
        r.trace.countP isFfmpeg = 0 ∧
        r.trace.countP isTranscribe = 1 ∧
        r.trace.countP isUpload = 1) ∧
    (fileExtensionOf n = "mp3" →
      ∃ r, processAudio fuel env { bucket := some b, name := some n } = some r ∧
        r.trace = [Action.download (tmpPath n),
                   Action.transcribe ("gs://" ++ b ++ "/" ++ n) Encoding.MP3,
                   Action.uploadString (n ++ ".txt") t "text/plain"] ∧
        r.trace.countP isFfmpeg = 0 ∧
        r.trace.countP isTranscribe = 1 ∧
        r.trace.countP isUpload = 1) := by
  constructor
  · intro hext hmk
    refine ⟨_, run_wav fuel env b n j t hb hn hext hmk hdl hpoll hfetch hcomp hup,
      rfl, ?_, ?_, ?_⟩ <;>
    simp [List.countP_cons, isFfmpeg, isUpload, isTranscribe]
  · intro hext
    refine ⟨_, run_mp3 fuel env b n j t hb hn hext hdl hpoll hfetch hcomp hup,
      rfl, ?_, ?_, ?_⟩ <;>
    simp [List.countP_cons, isFfmpeg, isUpload, isTranscribe]

/-- C4 witness: the `wav` branch of the theorem at the concrete event
`{bucket: "b1", name: "rec.wav"}` in the all-success environment. -/
theorem c4_witness :
    ∃ r, processAudio 1 envA { bucket := some "b1", name := some "rec.wav" } = some r ∧
      r.trace = [Action.download (tmpPath "rec.wav"),
                 Action.transcribe ("gs://" ++ "b1" ++ "/" ++ "rec.wav") Encoding.LINEAR16,
                 Action.uploadString ("rec.wav" ++ ".txt") "hallo welt\nzweiter teil" "text/plain"] ∧
      r.trace.countP isFfmpeg = 0 ∧
      r.trace.countP isTranscribe = 1 ∧
      r.trace.countP isUpload = 1 :=
  (c4_direct_formats 1 envA "b1" "rec.wav" 0 "hallo welt\nzweiter teil"
    (by decide) (by decide) rfl rfl rfl rfl rfl).1 (by decide) (by decide)

/-- C5: on every trigger event missing the `bucket` key, missing the `name`
key, or carrying an empty value for either, the handler performs no upload
and logs an InvalidEvent-class condition (the `KeyError` on a missing key
or the `ValueError` on an empty value), then returns normally. -/
theorem c5_invalid_event (fuel : Nat) (env : Env) (event : Event)
    (h : event.bucket = none ∨ event.name = none ∨
         event.bucket = some "" ∨ event.name = some "") :
    ∃ r, processAudio fuel env event = some r ∧
      r.trace.countP isUpload = 0 ∧
      ∃ e, Action.logError e ∈ r.trace ∧ e.isInvalidEvent = true := by
  obtain ⟨ob, onm⟩ := event
  rcases ob with _ | b
  · exact ⟨_, run_missing_bucket fuel env onm, by simp [List.countP_cons, isUpload],
      Err.keyError "bucket", by simp, rfl⟩
  · rcases onm with _ | n
    · exact ⟨_, run_missing_name fuel env b, by simp [List.countP_cons, isUpload],
        Err.keyError "name", by simp, rfl⟩
    · have hbn : b = "" ∨ n = "" := by
        rcases h with h | h | h | h
        · simp at h
        · simp at h
        · exact Or.inl (by simpa using h)
        · exact Or.inr (by simpa using h)
      exact ⟨_, run_empty_names fuel env b n hbn, by simp [List.countP_cons, isUpload],
        Err.missingBucketOrName, by simp, rfl⟩

/-- C5 witness: the event with no `bucket` key produces no upload and an
InvalidEvent-class log entry. -/
theorem c5_witness :
    ∃ r, processAudio 1 envA { bucket := none, name := some "a.wav" } = some r ∧
      r.trace.countP isUpload = 0 ∧
      ∃ e, Action.logError e ∈ r.trace ∧ e.isInvalidEvent = true :=
  c5_invalid_event 1 envA { bucket := none, name := some "a.wav" } (Or.inl rfl)

/-- C6: on every object key whose extension (text after the last dot,
lowercased) is none of `wav`, `m4a`, `mp3`, the handler uploads nothing;
and whenever the preceding download succeeds it logs the
`UnsupportedFormat` condition for that extension. -/
theorem c6_unsupported_format (fuel : Nat) (env : Env) (b n : String)
    (hb : b ≠ "") (hn : n ≠ "")
    (h1 : fileExtensionOf n ≠ "wav") (h2 : fileExtensionOf n ≠ "m4a")
    (h3 : fileExtensionOf n ≠ "mp3") :
    ∃ r, processAudio fuel env { bucket := some b, name := some n } = some r ∧
      r.trace.countP isUpload = 0 ∧
      (env.downloadOk = true →
        Action.logError (Err.unsupportedFormat (fileExtensionOf n)) ∈ r.trace) := by
  cases hdl : env.downloadOk
  · refine ⟨_, run_download_failed fuel env b n hb hn (fun hc => h1 hc.1) hdl,
      by simp [List.countP_cons, isUpload], ?_⟩
    intro hc
    simp at hc
  · exact ⟨_, run_unsupported fuel env b n hb hn h1 h2 h3 hdl,
      by simp [List.countP_cons, isUpload], fun _ => by simp⟩

/-- C6 witness: the key `notes.pdf` (extension `pdf`) yields no upload and
an `UnsupportedFormat "pdf"` log entry. -/
theorem c6_witness :
    ∃ r, processAudio 1 envA { bucket := some "b1", name := some "notes.pdf" } = some r ∧
      r.trace.countP isUpload = 0 ∧
      (envA.downloadOk = true →
        Action.logError (Err.unsupportedFormat (fileExtensionOf "notes.pdf")) ∈ r.trace) :=
  c6_unsupported_format 1 envA "b1" "notes.pdf"
    (by decide) (by decide) (by decide) (by decide) (by decide)

/-- C7: on every key containing the marker substring `_converted` whose
extension is `wav`, the handler returns right after the guard: its whole
trace is the skip message, with no download, no upload and no
transcription call. -/
theorem c7_converted_skip (fuel : Nat) (env : Env) (b n : String)
    (hb : b ≠ "") (hn : n ≠ "")
    (hext : fileExtensionOf n = "wav") (hmk : strContains n "_converted" = true) :
    ∃ r, processAudio fuel env { bucket := some b, name := some n } = some r ∧
      r.trace = [Action.skipConverted n] ∧
      r.trace.countP isDownload = 0 ∧
      r.trace.countP isUpload = 0 ∧
      r.trace.countP isTranscribe = 0 := by
  refine ⟨_, run_skip fuel env b n hb hn hext hmk, rfl, ?_, ?_, ?_⟩ <;>
  simp [List.countP_cons, isDownload, isUpload, isTranscribe]

/-- C7 witness: the key `x_converted.wav` is skipped entirely. -/
theorem c7_witness :
    ∃ r, processAudio 1 envA { bucket := some "b1", name := some "x_converted.wav" } = some r ∧
      r.trace = [Action.skipConverted "x_converted.wav"] ∧
      r.trace.countP isDownload = 0 ∧
      r.trace.countP isUpload = 0 ∧
      r.trace.countP isTranscribe = 0 :=
  c7_converted_skip 1 envA "b1" "x_converted.wav"
    (by decide) (by decide) (by decide) (by decide)

/-- C8 counterexample: the fully successful `wav` run for
`{bucket: "b1", name: "rec2.wav"}` terminates normally with the downloaded
staging file `/tmp/rec2.wav` still present — the claim's "no local staging
copy remains when the handler returns" is false for `wav` sources. -/
theorem c8_counterexample :
    processAudio 1 envA { bucket := some "b1", name := some "rec2.wav" } =
      some { trace := [Action.download "/tmp/rec2.wav",
                       Action.transcribe "gs://b1/rec2.wav" Encoding.LINEAR16,
                       Action.uploadString "rec2.wav.txt" "hallo welt\nzweiter teil" "text/plain"],
             localFiles := ["/tmp/rec2.wav"] } ∧
    (processAudio 1 envA { bucket := some "b1", name := some "rec2.wav" }).map
      (fun r => r.localFiles.isEmpty) = some false := by
  refine ⟨by decide, by decide⟩

/-- C8 (amended): only successful `m4a` runs delete the local temporaries
(both of them); a successful `wav` run (non-converted key) or `mp3` run
leaves the downloaded staging file `/tmp/<key>` behind when the handler
returns. -/
theorem c8_staging_cleanup (fuel : Nat) (env : Env) (b n : String) (j : Nat) (t : String)
    (hb : b ≠ "") (hn : n ≠ "")
    (hdl : env.downloadOk = true)
    (hpoll : pollDone env.op fuel 0 = some j) (hfetch : env.op.fetchOk = true)
    (hcomp : compileTranscription env.op.results = some t)
    (hup : env.uploadStringOk = true) :
    (fileExtensionOf n = "m4a" → env.transcodeExitCode = 0 → env.uploadFileOk = true →
      ∃ r, processAudio fuel env { bucket := some b, name := some n } = some r ∧
        r.localFiles = []) ∧
    (fileExtensionOf n = "wav" → strContains n "_converted" = false →
      ∃ r, processAudio fuel env { bucket := some b, name := some n } = some r ∧
        r.localFiles = [tmpPath n]) ∧
    (fileExtensionOf n = "mp3" →
      ∃ r, processAudio fuel env { bucket := some b, name := some n } = some r ∧
        r.localFiles = [tmpPath n]) := by
  refine ⟨?_, ?_, ?_⟩
  · intro hext hexit hupf
    exact ⟨_, run_m4a fuel env b n j t hb hn hext hdl hexit hupf hpoll hfetch hcomp hup, rfl⟩
  · intro hext hmk
    exact ⟨_, run_wav fuel env b n j t hb hn hext hmk hdl hpoll hfetch hcomp hup, rfl⟩
  · intro hext
    exact ⟨_, run_mp3 fuel env b n j t hb hn hext hdl hpoll hfetch hcomp hup, rfl⟩

/-- C8 witness: the amended statement's `m4a` part at the concrete event
`{bucket: "b2", name: "voice.m4a"}`: both temporaries are gone. -/
theorem c8_witness :
    ∃ r, processAudio 1 envA { bucket := some "b2", name := some "voice.m4a" } = some r ∧
      r.localFiles = [] :=
  (c8_staging_cleanup 1 envA "b2" "voice.m4a" 0 "hallo welt\nzweiter teil"
    (by decide) (by decide) rfl rfl rfl rfl rfl).1 (by decide) rfl rfl

/-- C9: the poll loop sleeps a fixed 5 seconds per iteration and has no
iteration bound or loop-level timeout: it reaches a completed check (for
some fuel) exactly when the operation eventually reports done, and the
index it stops at is the first done check; only the final result fetch has
the fixed 1000-second bound, whose expiry makes `transcribe_audio` raise a
transcription failure. -/
theorem c9_poll_unbounded (op : Operation) :
    sleepSeconds = 5 ∧ resultTimeoutSeconds = 1000 ∧
    ((∃ fuel j, pollDone op fuel 0 = some j) ↔ ∃ n, op.doneAt n = true) ∧
    (∀ fuel j, pollDone op fuel 0 = some j →
      op.doneAt j = true ∧ ∀ i, i < j → op.doneAt i = false) ∧
    (∀ fuel j gcs_uri file_extension language_code,
      pollDone op fuel 0 = some j → op.fetchOk = false →
      transcribeAudio fuel op gcs_uri file_extension language_code =
        some (Except.error TranscribeErr.fetchTimeout)) := by
  refine ⟨rfl, rfl, ?_, ?_, ?_⟩
  · constructor
    · rintro ⟨fuel, j, hj⟩
      exact ⟨j, (pollDone_first_done op fuel 0 j hj).2.1⟩
    · rintro ⟨n, hn⟩
      obtain ⟨j, hj⟩ := pollDone_of_done op (n + 1) 0 ⟨n, Nat.zero_le n, by omega, hn⟩
      exact ⟨n + 1, j, hj⟩
  · intro fuel j hj
    obtain ⟨_, h2, h3⟩ := pollDone_first_done op fuel 0 j hj
    exact ⟨h2, fun i hi => h3 i (Nat.zero_le i) hi⟩
  · intro fuel j gcs_uri file_extension language_code hj hf
    simp [transcribeAudio, hj, hf]

/-- C9 witness: for the operation done at the second check whose final
fetch times out, the loop terminates and the timeout propagates as a
transcription failure. -/
theorem c9_witness :
    (∃ n, opTimeout.doneAt n = true) ∧
    transcribeAudio 2 opTimeout "gs://b/a.wav" "wav" "de-DE" =
      some (Except.error TranscribeErr.fetchTimeout) :=
  ⟨(c9_poll_unbounded opTimeout).2.2.1.mp ⟨2, 1, rfl⟩,
   (c9_poll_unbounded opTimeout).2.2.2.2 2 1 "gs://b/a.wav" "wav" "de-DE" rfl rfl⟩

/-- C10: a transcript object is keyed `<name>.txt`, whose extension is
`txt`; when it re-triggers the handler the wav-only converted guard does
not fire, so (download succeeding) the handler first downloads the object
and only then fails with `UnsupportedFormat "txt"`, uploading nothing. -/
theorem c10_txt_retrigger (fuel : Nat) (env : Env) (b n : String)
    (hb : b ≠ "") (hdl : env.downloadOk = true) :
    fileExtensionOf (n ++ ".txt") = "txt" ∧
    ∃ r, processAudio fuel env { bucket := some b, name := some (n ++ ".txt") } = some r ∧
      r.trace = [Action.download (tmpPath (n ++ ".txt")),
                 Action.logError (Err.unsupportedFormat "txt")] ∧
      r.trace.countP isDownload = 1 ∧
      r.trace.countP isUpload = 0 ∧
      r.trace.countP isTranscribe = 0 := by
  have he := fileExtensionOf_append_txt n
  have hrun := run_unsupported fuel env b (n ++ ".txt") hb (append_txt_ne_empty n)
    (by rw [he]; decide) (by rw [he]; decide) (by rw [he]; decide) hdl
  rw [he] at hrun
  refine ⟨he, _, hrun, rfl, ?_, ?_, ?_⟩ <;>
  simp [List.countP_cons, isDownload, isUpload, isTranscribe]

/-- C10 witness: the transcript key "call.txt" re-triggering the handler
is downloaded and then rejected as unsupported. -/
theorem c10_witness :
    fileExtensionOf ("call" ++ ".txt") = "txt" ∧
    ∃ r, processAudio 1 envA { bucket := some "b1", name := some ("call" ++ ".txt") } = some r ∧
      r.trace = [Action.download (tmpPath ("call" ++ ".txt")),
                 Action.logError (Err.unsupportedFormat "txt")] ∧
      r.trace.countP isDownload = 1 ∧
      r.trace.countP isUpload = 0 ∧
      r.trace.countP isTranscribe = 0 :=
  c10_txt_retrigger 1 envA "b1" "call" (by decide) rfl

end Transcript
